import Mathlib

/-!
Shallow embedding of `src/app/pages/documents/view.js` from
amazon-textract-document-understanding-solution: the document view page
with its redaction workflow (redaction store actions dispatched by the
view's callbacks, derived per-page data, the canvas raster-export
pipeline `downloadRedacted`, the download file-name derivation, and the
`useFetchDocument` liveness guard).

Conventions: JS numbers on the normalized-coordinate path are embedded
as rationals; page numbers are naturals; object/document ids are
strings.  A JS object field that may be absent (`undefined`) is an
`Option`; a JS expression that throws is an `Except.error`.
-/

/-- Color of a canvas pixel.  `black` embeds the solid fill color
`ctx.fillStyle = '#000'` used by `downloadRedacted`; `white` stands for
any other source-image color. -/
inductive Color where
  | black : Color
  | white : Color
deriving DecidableEq

/-- Normalized (0..1) bounding box shared by lines, key/value pairs and
redaction marks.  The export code reads these fields as `red.Left`,
`red.Top`, `red.Width`, `red.Height`. -/
structure BoundingBox where
  left : ℚ
  top : ℚ
  width : ℚ
  height : ℚ
deriving DecidableEq

/-- An extracted form field, as consumed by the view
(`pageData.pairs` elements): `{ id, pageNumber, keyBoundingBox,
valueBoundingBox, key, value }`. -/
structure KeyValuePair where
  id : String
  pageNumber : ℕ
  keyBoundingBox : BoundingBox
  valueBoundingBox : BoundingBox
  key : String
  value : String
deriving DecidableEq

/-- Modelled from the spec: the redaction store interface
(`src/app/store/entities/documents`) and meta store
(`src/app/store/entities/meta`) are not under `src/`; only the actions
dispatched by the view are.  The store state is a keyed mapping from
document id and page number to an ordered list of redaction boxes,
plus the meta `currentPageNumber` and `searchQuery`. -/
structure AppState where
  redactions : String → ℕ → List BoundingBox
  currentPageNumber : ℕ
  searchQuery : String

/-- The store actions dispatched by the view (imported from
`../../store/entities/documents/actions` and
`../../store/entities/meta/actions`). -/
inductive StoreAction where
  | addRedactions (id : String) (pageNumber : ℕ) (boxes : List BoundingBox) : StoreAction
  | clearRedactions (id : String) : StoreAction
  | setSearchQuery (q : String) : StoreAction
  | setCurrentPageNumber (n : ℕ) : StoreAction

/-- Modelled from the spec: the reducers for the dispatched actions are
not under `src/`.  Per the spec, `addRedactions(id, pageNumber,
boxes[])` appends to the ordered per-page list for that document
(append-only, order-preserving, no de-duplication);
`clearRedactions(id)` removes all redaction state for that document
(all pages); `setSearchQuery` and `setCurrentPageNumber` set the meta
fields. -/
def applyAction (st : AppState) : StoreAction → AppState
  | StoreAction.addRedactions id pageNumber boxes =>
    { st with
      redactions := fun i p =>
        if i = id ∧ p = pageNumber then st.redactions i p ++ boxes else st.redactions i p }
  | StoreAction.clearRedactions id =>
    { st with redactions := fun i p => if i = id then [] else st.redactions i p }
  | StoreAction.setSearchQuery q => { st with searchQuery := q }
  | StoreAction.setCurrentPageNumber n => { st with currentPageNumber := n }

/-- Dispatch a list of actions in order. -/
def dispatchAll (st : AppState) (acts : List StoreAction) : AppState :=
  acts.foldl applyAction st

/-- The derived page-level key-value pairs:
`docData.pairs.filter(d => d.pageNumber === currentPageNumber)`
(view.js line 105). -/
def pageDataPairs (docPairs : List KeyValuePair) (currentPageNumber : ℕ) : List KeyValuePair :=
  docPairs.filter (fun d => d.pageNumber == currentPageNumber)

/-- The `redactMatches` callback (view.js lines 134-137): dispatches
`addRedactions(id, currentPageNumber, wordsMatchingSearch)` then
`setSearchQuery('')`. -/
def redactMatches (id : String) (currentPageNumber : ℕ)
    (wordsMatchingSearch : List BoundingBox) : List StoreAction :=
  [StoreAction.addRedactions id currentPageNumber wordsMatchingSearch,
   StoreAction.setSearchQuery ""]

/-- The `redact` callback (view.js lines 139-144): dispatches
`addRedactions(id, pageNumber, [bbox])`. -/
def redact (id : String) (pageNumber : ℕ) (bbox : BoundingBox) : List StoreAction :=
  [StoreAction.addRedactions id pageNumber [bbox]]

/-- The `clearReds` callback (view.js lines 146-148): dispatches
`clearRedactions(id)`. -/
def clearReds (id : String) : List StoreAction :=
  [StoreAction.clearRedactions id]

/-- The `redactAllValues` callback (view.js lines 150-152): dispatches
`addRedactions(id, currentPageNumber, pageData.pairs.map(p => p.valueBoundingBox))`. -/
def redactAllValues (id : String) (currentPageNumber : ℕ)
    (pagePairs : List KeyValuePair) : List StoreAction :=
  [StoreAction.addRedactions id currentPageNumber (pagePairs.map (fun p => p.valueBoundingBox))]

/-- The mount effect (view.js lines 77-80): on mount, dispatches
`setCurrentPageNumber(1)`. -/
def mountEffect : List StoreAction :=
  [StoreAction.setCurrentPageNumber 1]

/-- The unmount cleanup effect (view.js lines 82-86): on teardown,
dispatches `clearRedactions(id)`. -/
def unmountCleanup (id : String) : List StoreAction :=
  [StoreAction.clearRedactions id]

/-- JS `String.prototype.split(sep)` on characters: structural recursion
over the character list, producing the list of separator-delimited
groups (never empty; `''.split('/')` is `['']`). -/
def splitOnChar (sep : Char) : List Char → List (List Char)
  | [] => [[]]
  | c :: cs =>
    let r := splitOnChar sep cs
    if c = sep then [] :: r
    else
      match r with
      | [] => [[c]]
      | g :: gs => (c :: g) :: gs

/-- JS `name.replace(/\.[^.]+$/, '-REDACTED.png')` (view.js line 190):
when the name ends in a dot followed by at least one non-dot character,
that final extension is replaced by `-REDACTED.png`; otherwise the name
is returned unchanged (a non-global regex with no match replaces
nothing). -/
def replaceExtRedacted (s : List Char) : List Char :=
  let rcs := s.reverse
  match rcs.takeWhile (fun c => c ≠ '.'), rcs.dropWhile (fun c => c ≠ '.') with
  | _ :: _, _ :: before => before.reverse ++ "-REDACTED.png".data
  | _, _ => s

/-- The download file name computed by `downloadRedacted` (view.js
lines 187-190): `document.objectName.split('/').pop().replace(/\.[^.]+$/,
'-REDACTED.png')`. -/
def downloadFileName (objectName : String) : String :=
  String.mk (replaceExtRedacted ((splitOnChar '/' objectName.data).getLastD []))

/-- Whether a file name has a final extension: it ends in a dot
followed by at least one non-dot character. -/
def hasFinalExt (s : List Char) : Bool :=
  match s.reverse.takeWhile (fun c => c ≠ '.'), s.reverse.dropWhile (fun c => c ≠ '.') with
  | _ :: _, _ :: _ => true
  | _, _ => false

/-- Modelled from the spec's words for the file-name claim: the file
name is the original document file name's final path component with its
extension replaced by the suffix `-REDACTED.png` (the extension being
everything from the last dot on; a name with no dot has an empty
extension and just gains the suffix). -/
def specRedactedFileName (objectName : String) : String :=
  let base := (splitOnChar '/' objectName.data).getLastD []
  let stem :=
    match base.reverse.dropWhile (fun c => c ≠ '.') with
    | _ :: before => before.reverse
    | [] => base
  String.mk (stem ++ "-REDACTED.png".data)

/-- The rendered page surface located by
`contentRef.current.querySelector('canvas,img')`: its intrinsic
(natural) dimensions when it is an image, its element dimensions
otherwise, and its pixel content as a function of coordinates. -/
structure Surface where
  naturalWidth : Option ℕ
  width : ℕ
  naturalHeight : Option ℕ
  height : ℕ
  image : ℚ → ℚ → Color

/-- JS `a || b` for an optionally-present numeric field: `undefined`
and `0` are falsy and fall through to `b`. -/
def jsOrNat (a : Option ℕ) (b : ℕ) : ℕ :=
  match a with
  | some n => if n = 0 then b else n
  | none => b

/-- An off-screen canvas: dimensions plus pixel content.  The content
is a total function of geometric coordinates (in pixels), so an exact
rectangle fill is represented exactly. -/
structure Canvas where
  width : ℕ
  height : ℕ
  image : ℚ → ℚ → Color

/-- Canvas `ctx.fillRect(rx, ry, rw, rh)` with fill color `c`: points
of the closed rectangle take color `c`, every other point keeps the
color it had. -/
def fillRect (img : ℚ → ℚ → Color) (rx ry rw rh : ℚ) (c : Color) : ℚ → ℚ → Color :=
  fun px py =>
    if rx ≤ px ∧ px ≤ rx + rw ∧ ry ≤ py ∧ py ≤ ry + rh then c else img px py

/-- The fixed margin of `downloadRedacted` (view.js line 171). -/
def margin : ℚ := 2

/-- The redaction-fill loop of `downloadRedacted` (view.js lines
168-180): over the source image, for each redaction box in order, fill
a black rectangle at `(x(red.Left) - margin, y(red.Top) - margin)` of
size `(x(red.Width) + 2*margin, y(red.Height) + 2*margin)`, where
`x(v) = v * cnv.width` and `y(v) = v * cnv.height`. -/
def renderRedactions (w h : ℕ) (src : ℚ → ℚ → Color) (reds : List BoundingBox) :
    ℚ → ℚ → Color :=
  reds.foldl
    (fun img red =>
      fillRect img (red.left * w - margin) (red.top * h - margin)
        (red.width * w + 2 * margin) (red.height * h + 2 * margin) Color.black)
    src

/-- The closed rectangle filled for one redaction box: the box's
normalized extent scaled to canvas pixels and expanded by the fixed
2-pixel margin on all four sides. -/
def inExpandedRect (w h : ℕ) (r : BoundingBox) (px py : ℚ) : Prop :=
  r.left * w - margin ≤ px ∧ px ≤ r.left * w - margin + (r.width * w + 2 * margin) ∧
  r.top * h - margin ≤ py ∧ py ≤ r.top * h - margin + (r.height * h + 2 * margin)

instance (w h : ℕ) (r : BoundingBox) (px py : ℚ) : Decidable (inExpandedRect w h r px py) := by
  unfold inExpandedRect
  infer_instance

/-- The document object as read by `downloadRedacted`: its
`objectName` and its `redactions` field (absent until the store first
creates it; each page's entry absent until a redaction is added for
that page). -/
structure Document where
  objectName : String
  redactions : Option (ℕ → Option (List BoundingBox))

/-- The `downloadRedacted` callback (view.js lines 156-194): allocate a
canvas at the surface's intrinsic size (`naturalWidth || width`,
`naturalHeight || height`), draw the surface onto it, fill a black
expanded rectangle for every redaction box of the current page, and
produce a PNG download named by `downloadFileName`.
`Object.values(document.redactions[currentPageNumber])` throws a
TypeError when `document.redactions` is `undefined` or has no entry for
the current page. -/
def downloadRedacted (doc : Document) (currentPageNumber : ℕ) (surface : Surface) :
    Except String (Canvas × String) :=
  let w := jsOrNat surface.naturalWidth surface.width
  let h := jsOrNat surface.naturalHeight surface.height
  match doc.redactions with
  | none => Except.error "TypeError: Cannot read properties of undefined"
  | some reds =>
    match reds currentPageNumber with
    | none => Except.error "TypeError: Cannot convert undefined or null to object"
    | some rs =>
      Except.ok
        ({ width := w, height := h, image := renderRedactions w h surface.image rs },
          downloadFileName doc.objectName)

/-- The local state of the `useFetchDocument` hook (view.js lines
363-387): the `isMounted` ref (initialized `true`) and the `status`
string state (initialized `''`). -/
structure FetchState where
  isMounted : Bool
  status : String

/-- `isMounted.current && setStatus(s)`: the status is committed only
while the liveness flag is set. -/
def setStatusGuarded (st : FetchState) (s : String) : FetchState :=
  if st.isMounted then { st with status := s } else st

/-- Events acting on the hook state: the fetch effect running (with
`isDocumentFetched` as it saw it), the dispatched fetch promise
resolving or rejecting, and the unmount cleanup. -/
inductive FetchEvent where
  | start (isDocumentFetched : Bool) : FetchEvent
  | resolve : FetchEvent
  | reject : FetchEvent
  | unmount : FetchEvent

/-- One step of `useFetchDocument`: the effect sets `pending` (or
`success` when the document is already fetched), resolution sets
`success`, rejection sets `error` — each through the liveness guard —
and the cleanup clears the liveness flag (view.js lines 367-384). -/
def fetchStep (st : FetchState) : FetchEvent → FetchState
  | FetchEvent.start isDocumentFetched =>
    if isDocumentFetched then setStatusGuarded st "success"
    else setStatusGuarded st "pending"
  | FetchEvent.resolve => setStatusGuarded st "success"
  | FetchEvent.reject => setStatusGuarded st "error"
  | FetchEvent.unmount => { st with isMounted := false }

/-- A mark derived for the document viewer: a bounding box's spread
fields plus the originating pair's id and a key/value tag. -/
inductive MarkType where
  | key : MarkType
  | value : MarkType
deriving DecidableEq

/-- A viewer mark `{ ...boundingBox, id, type }`. -/
structure Mark where
  left : ℚ
  top : ℚ
  width : ℚ
  height : ℚ
  id : String
  type : MarkType
deriving DecidableEq

/-- Spread a bounding box into a mark with an id and a type tag. -/
def markOfBox (b : BoundingBox) (id : String) (t : MarkType) : Mark :=
  { left := b.left, top := b.top, width := b.width, height := b.height, id := id, type := t }

/-- `pagePairsAsMarks` (view.js lines 196-204): reduce over the page's
pairs, appending for each pair its key mark then its value mark. -/
def pagePairsAsMarks (pairs : List KeyValuePair) : List Mark :=
  pairs.foldl
    (fun acc p =>
      acc ++ [markOfBox p.keyBoundingBox p.id MarkType.key,
              markOfBox p.valueBoundingBox p.id MarkType.value])
    []

/-! ### Witness fixtures: concrete inputs used by closed witness theorems. -/

def wBoxK : BoundingBox := ⟨0, 0, 1, 1⟩

def wBoxV : BoundingBox := ⟨1, 1, 1, 1⟩

def wPair : KeyValuePair := ⟨"kv1", 1, wBoxK, wBoxV, "Name", "Alice"⟩

def wPair2 : KeyValuePair := ⟨"kv2", 2, wBoxV, wBoxK, "Date", "Today"⟩

def wSt : AppState := ⟨fun _ _ => [], 1, "foo"⟩

def wStFilled : AppState := ⟨fun _ _ => [wBoxK], 1, ""⟩

/-- C5: for every document-level key-value pair list and current page
number, the derived page-level pairs equal the document-level list
filtered exactly by the predicate pageNumber == currentPageNumber, so
every page-level pair is an element of the document-level list (with
that page number), and conversely every document-level pair with that
page number appears in the page-level list. -/
theorem pageDataPairs_filter_spec (docPairs : List KeyValuePair) (p : ℕ) :
    pageDataPairs docPairs p = docPairs.filter (fun d => d.pageNumber == p) ∧
    (∀ pair, pair ∈ pageDataPairs docPairs p → pair ∈ docPairs ∧ pair.pageNumber = p) ∧
    (∀ pair, pair ∈ docPairs → pair.pageNumber = p → pair ∈ pageDataPairs docPairs p) := by
  refine ⟨rfl, ?_, ?_⟩
  · intro pair h
    rw [pageDataPairs, List.mem_filter] at h
    exact ⟨h.1, by simpa using h.2⟩
  · intro pair h hp
    rw [pageDataPairs, List.mem_filter]
    exact ⟨h, by simpa using hp⟩

theorem pageDataPairs_filter_spec_witness :
    (wPair ∈ [wPair, wPair2] ∧ wPair.pageNumber = 1) ∧
    wPair ∈ pageDataPairs [wPair, wPair2] 1 :=
  ⟨(pageDataPairs_filter_spec [wPair, wPair2] 1).2.1 wPair (by decide),
   (pageDataPairs_filter_spec [wPair, wPair2] 1).2.2 wPair (by decide) (by decide)⟩

/-- C3: for every page whose derived key-value pairs are p_1..p_N,
`redactAllValues` appends exactly N boxes to the current page's
redaction set for the current document — the i-th appended box being
p_i's valueBoundingBox, in the pairs' existing order — and touches no
other (document, page) entry. -/
theorem redactAllValues_appends_value_boxes (st : AppState) (id : String)
    (docPairs : List KeyValuePair) :
    (dispatchAll st (redactAllValues id st.currentPageNumber
        (pageDataPairs docPairs st.currentPageNumber))).redactions id st.currentPageNumber =
      st.redactions id st.currentPageNumber ++
        (pageDataPairs docPairs st.currentPageNumber).map (fun p => p.valueBoundingBox) ∧
    ((pageDataPairs docPairs st.currentPageNumber).map (fun p => p.valueBoundingBox)).length =
      (pageDataPairs docPairs st.currentPageNumber).length ∧
    (∀ (i : ℕ) (p : KeyValuePair), (pageDataPairs docPairs st.currentPageNumber)[i]? = some p →
      ((pageDataPairs docPairs st.currentPageNumber).map (fun q => q.valueBoundingBox))[i]? =
        some p.valueBoundingBox) ∧
    (∀ (i : String) (q : ℕ), i ≠ id ∨ q ≠ st.currentPageNumber →
      (dispatchAll st (redactAllValues id st.currentPageNumber
          (pageDataPairs docPairs st.currentPageNumber))).redactions i q =
        st.redactions i q) := by
  refine ⟨?_, by simp, ?_, ?_⟩
  · simp [dispatchAll, redactAllValues, applyAction]
  · intro i p hp
    simp [List.getElem?_map, hp]
  · intro i q hiq
    simp only [dispatchAll, redactAllValues, List.foldl_cons, List.foldl_nil, applyAction]
    rw [if_neg]
    rintro ⟨rfl, rfl⟩
    rcases hiq with h | h <;> exact h rfl

theorem redactAllValues_appends_value_boxes_witness :
    ((pageDataPairs [wPair] 1).map (fun q => q.valueBoundingBox))[0]? =
      some wPair.valueBoundingBox ∧
    (dispatchAll wSt (redactAllValues "doc" 1 (pageDataPairs [wPair] 1))).redactions "other" 1 =
      wSt.redactions "other" 1 :=
  ⟨(redactAllValues_appends_value_boxes wSt "doc" [wPair]).2.2.1 0 wPair (by decide),
   (redactAllValues_appends_value_boxes wSt "doc" [wPair]).2.2.2 "other" 1 (Or.inl (by decide))⟩

/-- C4: `redactMatches` appends all boxes of the current
`wordsMatchingSearch` result to the current page's redaction set for
the current document and then resets the active search query to the
empty string. -/
theorem redactMatches_appends_and_clears_query (st : AppState) (id : String)
    (wordsMatchingSearch : List BoundingBox) :
    (dispatchAll st (redactMatches id st.currentPageNumber wordsMatchingSearch)).redactions id
        st.currentPageNumber =
      st.redactions id st.currentPageNumber ++ wordsMatchingSearch ∧
    (dispatchAll st (redactMatches id st.currentPageNumber wordsMatchingSearch)).searchQuery =
      "" := by
  constructor <;> simp [dispatchAll, redactMatches, applyAction]

theorem redactMatches_appends_and_clears_query_witness :
    (dispatchAll wSt (redactMatches "doc" 1 [wBoxK, wBoxV])).redactions "doc" 1 =
      [wBoxK, wBoxV] ∧
    (dispatchAll wSt (redactMatches "doc" 1 [wBoxK, wBoxV])).searchQuery = "" :=
  ⟨(redactMatches_appends_and_clears_query wSt "doc" [wBoxK, wBoxV]).1,
   (redactMatches_appends_and_clears_query wSt "doc" [wBoxK, wBoxV]).2⟩

/-- C7: the view's unmount cleanup issues a clear-redactions command
for the document's id, after which the redaction set of every page of
that document is empty; the explicit `clearReds` callback performs the
identical clearing. -/
theorem clearRedactions_empties_document (st : AppState) (id : String) :
    unmountCleanup id = [StoreAction.clearRedactions id] ∧
    (∀ page, (dispatchAll st (unmountCleanup id)).redactions id page = []) ∧
    dispatchAll st (clearReds id) = dispatchAll st (unmountCleanup id) := by
  refine ⟨rfl, ?_, rfl⟩
  intro page
  simp [dispatchAll, unmountCleanup, applyAction]

theorem clearRedactions_empties_document_witness :
    (dispatchAll wStFilled (unmountCleanup "doc")).redactions "doc" 2 = [] :=
  (clearRedactions_empties_document wStFilled "doc").2.1 2

/-- C8: the mount effect dispatches setCurrentPageNumber(1), so after a
fresh mount the current page number is 1 regardless of any prior
navigation state. -/
theorem mountEffect_resets_page_number (st : AppState) :
    (dispatchAll st mountEffect).currentPageNumber = 1 ∧
    mountEffect = [StoreAction.setCurrentPageNumber 1] :=
  ⟨rfl, rfl⟩

theorem mountEffect_resets_page_number_witness :
    (dispatchAll ⟨fun _ _ => [], 5, "q"⟩ mountEffect).currentPageNumber = 1 :=
  (mountEffect_resets_page_number ⟨fun _ _ => [], 5, "q"⟩).1

lemma fetchStep_unmounted (st : FetchState) (h : st.isMounted = false) (e : FetchEvent) :
    (fetchStep st e).status = st.status ∧ (fetchStep st e).isMounted = false := by
  cases e with
  | start b => cases b <;> simp [fetchStep, setStatusGuarded, h]
  | resolve => simp [fetchStep, setStatusGuarded, h]
  | reject => simp [fetchStep, setStatusGuarded, h]
  | unmount => simp [fetchStep, h]

lemma fetchRun_unmounted (evs : List FetchEvent) :
    ∀ st : FetchState, st.isMounted = false →
      (evs.foldl fetchStep st).status = st.status ∧
      (evs.foldl fetchStep st).isMounted = false := by
  induction evs with
  | nil => intro st h; exact ⟨rfl, h⟩
  | cons e es ih =>
    intro st h
    have h1 := fetchStep_unmounted st h e
    have h2 := ih (fetchStep st e) h1.2
    exact ⟨h2.1.trans h1.1, h2.2⟩

/-- C9: the unmount cleanup clears the liveness flag without touching
the status, and once the flag is cleared no later fetch resolution or
rejection (nor any other event) commits a status update: the stale
resolution is never surfaced.  The guard itself is a no-op on an
unmounted state. -/
theorem fetchStatus_silent_after_unmount (st : FetchState) (evs : List FetchEvent) :
    (fetchStep st FetchEvent.unmount).status = st.status ∧
    (evs.foldl fetchStep (fetchStep st FetchEvent.unmount)).status = st.status ∧
    (∀ s, st.isMounted = false → setStatusGuarded st s = st) := by
  refine ⟨rfl, ?_, ?_⟩
  · exact (fetchRun_unmounted evs (fetchStep st FetchEvent.unmount) rfl).1
  · intro s h
    simp [setStatusGuarded, h]

theorem fetchStatus_silent_after_unmount_witness :
    ([FetchEvent.resolve, FetchEvent.reject].foldl fetchStep
        (fetchStep ⟨true, "pending"⟩ FetchEvent.unmount)).status = "pending" ∧
    setStatusGuarded ⟨false, "pending"⟩ "success" = ⟨false, "pending"⟩ :=
  ⟨(fetchStatus_silent_after_unmount ⟨true, "pending"⟩ [FetchEvent.resolve, FetchEvent.reject]).2.1,
   (fetchStatus_silent_after_unmount ⟨false, "pending"⟩ []).2.2 "success" rfl⟩

lemma foldl_marks_append (pairs : List KeyValuePair) :
    ∀ acc : List Mark,
      pairs.foldl
          (fun acc p =>
            acc ++ [markOfBox p.keyBoundingBox p.id MarkType.key,
                    markOfBox p.valueBoundingBox p.id MarkType.value]) acc =
        acc ++ pagePairsAsMarks pairs := by
  induction pairs with
  | nil => intro acc; simp [pagePairsAsMarks]
  | cons p ps ih =>
    intro acc
    rw [pagePairsAsMarks, List.foldl_cons, List.foldl_cons, List.nil_append, ih, ih, ←
      List.append_assoc]

lemma pagePairsAsMarks_cons (p : KeyValuePair) (ps : List KeyValuePair) :
    pagePairsAsMarks (p :: ps) =
      markOfBox p.keyBoundingBox p.id MarkType.key ::
        markOfBox p.valueBoundingBox p.id MarkType.value :: pagePairsAsMarks ps := by
  rw [pagePairsAsMarks, List.foldl_cons, List.nil_append, foldl_marks_append]
  rfl

lemma pagePairsAsMarks_length (pairs : List KeyValuePair) :
    (pagePairsAsMarks pairs).length = 2 * pairs.length := by
  induction pairs with
  | nil => rfl
  | cons p ps ih =>
    rw [pagePairsAsMarks_cons]
    simp [ih]
    ring

lemma pagePairsAsMarks_getElem (pairs : List KeyValuePair) :
    ∀ (i : ℕ) (p : KeyValuePair), pairs[i]? = some p →
      (pagePairsAsMarks pairs)[2 * i]? =
        some (markOfBox p.keyBoundingBox p.id MarkType.key) ∧
      (pagePairsAsMarks pairs)[2 * i + 1]? =
        some (markOfBox p.valueBoundingBox p.id MarkType.value) := by
  induction pairs with
  | nil => intro i p h; simp at h
  | cons q qs ih =>
    intro i p h
    rw [pagePairsAsMarks_cons]
    cases i with
    | zero =>
      simp only [List.getElem?_cons_zero, Option.some.injEq] at h
      subst h
      constructor <;> simp
    | succ j =>
      rw [List.getElem?_cons_succ] at h
      obtain ⟨h1, h2⟩ := ih j p h
      constructor
      · have e : 2 * (j + 1) = 2 * j + 1 + 1 := by ring
        rw [e, List.getElem?_cons_succ, List.getElem?_cons_succ]
        exact h1
      · have e : 2 * (j + 1) + 1 = 2 * j + 1 + 1 + 1 := by ring
        rw [e, List.getElem?_cons_succ, List.getElem?_cons_succ]
        exact h2

/-- C10: for N page-level key-value pairs, the derived marks list for
the key-value tab has exactly 2N elements; for the i-th pair, the mark
at index 2i is the pair's keyBoundingBox spread with the pair's id and
type key, and the mark at index 2i+1 is the pair's valueBoundingBox
spread with the pair's id and type value. -/
theorem pagePairsAsMarks_structure (pairs : List KeyValuePair) :
    (pagePairsAsMarks pairs).length = 2 * pairs.length ∧
    ∀ (i : ℕ) (p : KeyValuePair), pairs[i]? = some p →
      (pagePairsAsMarks pairs)[2 * i]? =
        some (markOfBox p.keyBoundingBox p.id MarkType.key) ∧
      (pagePairsAsMarks pairs)[2 * i + 1]? =
        some (markOfBox p.valueBoundingBox p.id MarkType.value) :=
  ⟨pagePairsAsMarks_length pairs, pagePairsAsMarks_getElem pairs⟩

theorem pagePairsAsMarks_structure_witness :
    (pagePairsAsMarks [wPair])[0]? =
      some (markOfBox wPair.keyBoundingBox wPair.id MarkType.key) ∧
    (pagePairsAsMarks [wPair])[1]? =
      some (markOfBox wPair.valueBoundingBox wPair.id MarkType.value) :=
  (pagePairsAsMarks_structure [wPair]).2 0 wPair rfl

lemma fillRect_box (src : ℚ → ℚ → Color) (w h : ℕ) (r : BoundingBox) (px py : ℚ) :
    fillRect src (r.left * w - margin) (r.top * h - margin)
        (r.width * w + 2 * margin) (r.height * h + 2 * margin) Color.black px py =
      if inExpandedRect w h r px py then Color.black else src px py := by
  unfold fillRect inExpandedRect
  rfl

lemma renderRedactions_pointwise (reds : List BoundingBox) :
    ∀ (w h : ℕ) (src : ℚ → ℚ → Color) (px py : ℚ),
      renderRedactions w h src reds px py =
        if ∃ r ∈ reds, inExpandedRect w h r px py then Color.black else src px py := by
  induction reds with
  | nil =>
    intro w h src px py
    simp [renderRedactions]
  | cons r rs ih =>
    intro w h src px py
    have step : renderRedactions w h src (r :: rs) px py =
        renderRedactions w h
          (fillRect src (r.left * w - margin) (r.top * h - margin)
            (r.width * w + 2 * margin) (r.height * h + 2 * margin) Color.black) rs px py := rfl
    rw [step, ih, fillRect_box]
    by_cases hr : inExpandedRect w h r px py
    · have hall : ∃ x ∈ r :: rs, inExpandedRect w h x px py :=
        ⟨r, List.mem_cons_self r rs, hr⟩
      by_cases hrs : ∃ x ∈ rs, inExpandedRect w h x px py
      · rw [if_pos hrs, if_pos hall]
      · rw [if_neg hrs, if_pos hr, if_pos hall]
    · by_cases hrs : ∃ x ∈ rs, inExpandedRect w h x px py
      · have hall : ∃ x ∈ r :: rs, inExpandedRect w h x px py := by
          obtain ⟨x, hx, hxx⟩ := hrs
          exact ⟨x, List.mem_cons_of_mem r hx, hxx⟩
        rw [if_pos hrs, if_pos hall]
      · have hall : ¬ ∃ x ∈ r :: rs, inExpandedRect w h x px py := by
          rintro ⟨x, hx, hxx⟩
          rcases List.mem_cons.mp hx with rfl | hmem
          · exact hr hxx
          · exact hrs ⟨x, hmem, hxx⟩
        rw [if_neg hrs, if_neg hr, if_neg hall]

lemma inExpandedRect_example (px py : ℚ) :
    inExpandedRect 800 600 ⟨0.1, 0.1, 0.2, 0.1⟩ px py ↔
      78 ≤ px ∧ px ≤ 242 ∧ 58 ≤ py ∧ py ≤ 122 := by
  unfold inExpandedRect margin
  norm_num

/-- C1: the export allocates its canvas at the surface's intrinsic
size and, for every redaction box of the current page, fills an opaque
black rectangle at the box's normalized left/width scaled by the
canvas width and top/height scaled by the canvas height, expanded by
the fixed 2-pixel margin on all four sides; every point outside all
expanded rectangles keeps the source image's color.  In particular,
for an 800x600 surface and the box (0.1, 0.1, 0.2, 0.1), the black
rectangle covers exactly x in 78..242 and y in 58..122, and all other
points equal the source image. -/
theorem downloadRedacted_fills_expanded_black_rects :
    (∀ (doc : Document) (page : ℕ) (surface : Surface)
        (f : ℕ → Option (List BoundingBox)) (rs : List BoundingBox),
      doc.redactions = some f → f page = some rs →
      downloadRedacted doc page surface =
        Except.ok
          ({ width := jsOrNat surface.naturalWidth surface.width,
             height := jsOrNat surface.naturalHeight surface.height,
             image := renderRedactions (jsOrNat surface.naturalWidth surface.width)
               (jsOrNat surface.naturalHeight surface.height) surface.image rs },
            downloadFileName doc.objectName)) ∧
    (∀ (w h : ℕ) (src : ℚ → ℚ → Color) (reds : List BoundingBox) (px py : ℚ),
      ((∃ r ∈ reds, inExpandedRect w h r px py) →
        renderRedactions w h src reds px py = Color.black) ∧
      ((∀ r ∈ reds, ¬ inExpandedRect w h r px py) →
        renderRedactions w h src reds px py = src px py)) ∧
    (∀ (src : ℚ → ℚ → Color) (px py : ℚ),
      (78 ≤ px → px ≤ 242 → 58 ≤ py → py ≤ 122 →
        renderRedactions 800 600 src [⟨0.1, 0.1, 0.2, 0.1⟩] px py = Color.black) ∧
      (¬ (78 ≤ px ∧ px ≤ 242 ∧ 58 ≤ py ∧ py ≤ 122) →
        renderRedactions 800 600 src [⟨0.1, 0.1, 0.2, 0.1⟩] px py = src px py)) := by
  refine ⟨?_, ?_, ?_⟩
  · intro doc page surface f rs h1 h2
    simp [downloadRedacted, h1, h2]
  · intro w h src reds px py
    constructor
    · intro hex
      rw [renderRedactions_pointwise, if_pos hex]
    · intro hnone
      rw [renderRedactions_pointwise, if_neg]
      rintro ⟨x, hx, hxx⟩
      exact hnone x hx hxx
  · intro src px py
    constructor
    · intro h1 h2 h3 h4
      rw [renderRedactions_pointwise, if_pos]
      exact ⟨⟨0.1, 0.1, 0.2, 0.1⟩, List.mem_singleton.mpr rfl,
        (inExpandedRect_example px py).mpr ⟨h1, h2, h3, h4⟩⟩
    · intro hout
      rw [renderRedactions_pointwise, if_neg]
      rintro ⟨x, hx, hxx⟩
      rw [List.mem_singleton] at hx
      subst hx
      exact hout ((inExpandedRect_example px py).mp hxx)

def wBox110 : BoundingBox := ⟨0.1, 0.1, 0.2, 0.1⟩

def wWhite : ℚ → ℚ → Color := fun _ _ => Color.white

def wSurface : Surface := ⟨some 800, 800, some 600, 600, wWhite⟩

def wDocRedactions : ℕ → Option (List BoundingBox) :=
  fun p => if p = 1 then some [wBox110] else none

def wDoc : Document := ⟨"uploads/scan.pdf", some wDocRedactions⟩

theorem downloadRedacted_fills_expanded_black_rects_witness :
    renderRedactions 800 600 wWhite [⟨0.1, 0.1, 0.2, 0.1⟩] 100 100 = Color.black ∧
    renderRedactions 800 600 wWhite [⟨0.1, 0.1, 0.2, 0.1⟩] 0 0 = Color.white ∧
    downloadRedacted wDoc 1 wSurface =
      Except.ok
        ({ width := 800, height := 600,
           image := renderRedactions 800 600 wWhite [wBox110] }, downloadFileName "uploads/scan.pdf") :=
  ⟨(downloadRedacted_fills_expanded_black_rects.2.2 wWhite 100 100).1
      (by norm_num) (by norm_num) (by norm_num) (by norm_num),
   (downloadRedacted_fills_expanded_black_rects.2.2 wWhite 0 0).2 (by norm_num),
   downloadRedacted_fills_expanded_black_rects.1 wDoc 1 wSurface wDocRedactions [wBox110]
      rfl rfl⟩

def wDocNoPage : Document :=
  ⟨"uploads/scan.pdf", some (fun p => if p = 2 then some [wBox110] else none)⟩

/-- C2 counterexample: for a document whose redaction set has an entry
for page 2 only, invoking the raster export pipeline on current page 1
faults — `Object.values(document.redactions[1])` throws a TypeError —
instead of producing an unmodified copy of the page. -/
theorem downloadRedacted_missing_entry_faults :
    downloadRedacted wDocNoPage 1 wSurface =
      Except.error "TypeError: Cannot convert undefined or null to object" := rfl

/-- C2 (amended): when the current page's redaction entry exists but
holds no boxes, the pipeline does not fault and produces a download
equal to an unmodified copy of the page; when the current page has no
redaction entry at all (or the document has none), the pipeline faults
with a TypeError rather than downloading anything. -/
theorem downloadRedacted_empty_entry_unmodified (doc : Document) (page : ℕ)
    (surface : Surface) (f : ℕ → Option (List BoundingBox))
    (h1 : doc.redactions = some f) (h2 : f page = some []) :
    downloadRedacted doc page surface =
      Except.ok
        ({ width := jsOrNat surface.naturalWidth surface.width,
           height := jsOrNat surface.naturalHeight surface.height,
           image := surface.image },
          downloadFileName doc.objectName) := by
  simp [downloadRedacted, h1, h2, renderRedactions]

def wDocEmptyEntry : Document :=
  ⟨"uploads/scan.pdf", some (fun p => if p = 1 then some [] else none)⟩

theorem downloadRedacted_empty_entry_unmodified_witness :
    downloadRedacted wDocEmptyEntry 1 wSurface =
      Except.ok
        ({ width := 800, height := 600, image := wSurface.image },
          downloadFileName "uploads/scan.pdf") :=
  downloadRedacted_empty_entry_unmodified wDocEmptyEntry 1 wSurface
    (fun p => if p = 1 then some [] else none) rfl rfl

/-- C6 counterexample: for the object name `uploads/scan` — whose final
path component has no extension — the export's download name is `scan`,
not the `scan-REDACTED.png` the claim describes: the replacement regex
matches nothing, so no `-REDACTED.png` suffix (and no PNG extension at
all) appears in the name. -/
theorem downloadFileName_no_extension_differs :
    downloadFileName "uploads/scan" = "scan" ∧
    specRedactedFileName "uploads/scan" = "scan-REDACTED.png" ∧
    downloadFileName "uploads/scan" ≠ specRedactedFileName "uploads/scan" := by
  refine ⟨by decide, by decide, by decide⟩

/-- C6 (amended): for every document object name whose final path
component has an extension — ends in a dot followed by at least one
non-dot character — the raster export's PNG download name is that
final path component with the extension replaced by `-REDACTED.png`;
a final path component without such an extension is used unchanged. -/
theorem downloadFileName_extension_replaced (objectName : String)
    (h : hasFinalExt ((splitOnChar '/' objectName.data).getLastD []) = true) :
    downloadFileName objectName = specRedactedFileName objectName := by
  unfold hasFinalExt at h
  unfold downloadFileName specRedactedFileName replaceExtRedacted
  rcases htw : ((splitOnChar '/' objectName.data).getLastD []).reverse.takeWhile
      (fun c => c ≠ '.') with _ | ⟨a, tl⟩ <;>
    rcases hdw : ((splitOnChar '/' objectName.data).getLastD []).reverse.dropWhile
        (fun c => c ≠ '.') with _ | ⟨d, before⟩ <;>
    rw [htw, hdw] at h <;>
    simp only [htw, hdw] <;>
    simp at h ⊢

theorem downloadFileName_extension_replaced_witness :
    hasFinalExt ((splitOnChar '/' "uploads/scan.pdf".data).getLastD []) = true ∧
    downloadFileName "uploads/scan.pdf" = "scan-REDACTED.png" :=
  ⟨by decide,
   by rw [downloadFileName_extension_replaced "uploads/scan.pdf" (by decide)]; decide⟩
